import Mathlib

/-!
Verification of the sovra agent core: a shallow embedding of the task data
model, the queue store of src/autonomy/goal_planner.py, the scheduling
function get_next_task, the personality policy predicates of
src/brain/personality.py, and the shell-handler permission gate of
src/autonomy/execution_loop.py, together with theorems settling the spec's
claims about them.
-/

namespace Sovra

/-- Priority levels of a task (goal_planner.py, class TaskPriority). -/
inductive TaskPriority where
  | critical
  | high
  | normal
  | background
deriving DecidableEq, Repr

/-- The string value of a priority (the Python str-enum value). -/
def TaskPriority.value : TaskPriority → String
  | .critical => "critical"
  | .high => "high"
  | .normal => "normal"
  | .background => "background"

/-- Status values of a task (goal_planner.py, class TaskStatus). -/
inductive TaskStatus where
  | pending
  | in_progress
  | completed
  | failed
  | blocked
  | cancelled
deriving DecidableEq, Repr

/-- The string value of a status (the Python str-enum value). -/
def TaskStatus.value : TaskStatus → String
  | .pending => "pending"
  | .in_progress => "in_progress"
  | .completed => "completed"
  | .failed => "failed"
  | .blocked => "blocked"
  | .cancelled => "cancelled"

/-- A task record (goal_planner.py, class Task). Fields exactly as in the
source; timestamps are opaque strings, the uuid of a fresh task is an
opaque string supplied by the caller of the constructor model. -/
structure Task where
  id : String
  goal : String
  action : String
  task_type : String
  command : String
  priority : TaskPriority
  status : TaskStatus
  parent_id : Option String
  depends_on : List String
  result : Option String
  error : Option String
  attempts : List String
  created_at : String
  completed_at : Option String
deriving DecidableEq, Repr

/-- Task.__init__: a freshly constructed task is pending, with no result,
no error, no attempts and no completion timestamp. The uuid and the
created_at timestamp are parameters of the model. -/
def Task.make (id goal action task_type command : String) (priority : TaskPriority)
    (parent_id : Option String) (depends_on : List String) (created_at : String) : Task :=
  { id := id, goal := goal, action := action, task_type := task_type, command := command,
    priority := priority, status := TaskStatus.pending, parent_id := parent_id,
    depends_on := depends_on, result := none, error := none, attempts := [],
    created_at := created_at, completed_at := none }

/-- JSON values, the codomain of json.loads as used by the repository
(no floats appear in the queue file). -/
inductive Json where
  | null
  | bool (b : Bool)
  | num (n : Int)
  | str (s : String)
  | arr (items : List Json)
  | obj (fields : List (String × Json))
deriving Repr

/-- Python None-or-string serialized to JSON. -/
def optJson : Option String → Json
  | none => Json.null
  | some s => Json.str s

/-- Task.to_dict: the serialized dictionary, in the field order of the
source. -/
def Task.to_dict (t : Task) : Json :=
  Json.obj
    [ ("id", Json.str t.id),
      ("goal", Json.str t.goal),
      ("action", Json.str t.action),
      ("task_type", Json.str t.task_type),
      ("command", Json.str t.command),
      ("priority", Json.str t.priority.value),
      ("status", Json.str t.status.value),
      ("parent_id", optJson t.parent_id),
      ("depends_on", Json.arr (t.depends_on.map Json.str)),
      ("result", optJson t.result),
      ("error", optJson t.error),
      ("attempts", Json.arr (t.attempts.map Json.str)),
      ("created_at", Json.str t.created_at),
      ("completed_at", optJson t.completed_at) ]

/-- dict.get / dict[k] on a JSON object: the value of the first binding of
the key, if any. -/
def jlookup (fields : List (String × Json)) (k : String) : Option Json :=
  (fields.find? (fun p => p.1 == k)).map (fun p => p.2)

/-- Errors Task.from_dict can raise. keyError is Python KeyError (missing
required key, caught by _load_queue); valueError is Python ValueError from
an enum lookup (not caught); typeMismatch marks dynamically-typed field
shapes outside this typed model's domain. -/
inductive LoadErr where
  | keyError
  | valueError
  | typeMismatch
deriving DecidableEq, Repr

/-- data[k] for a required string field: KeyError when the key is absent. -/
def readStrReq : Option Json → Except LoadErr String
  | none => Except.error LoadErr.keyError
  | some (Json.str s) => Except.ok s
  | some _ => Except.error LoadErr.typeMismatch

/-- data.get(k, d) for a string field with default d. -/
def readStrD (d : String) : Option Json → Except LoadErr String
  | none => Except.ok d
  | some (Json.str s) => Except.ok s
  | some _ => Except.error LoadErr.typeMismatch

/-- data.get(k) for an optional string field (absent and null both map to
Python None). -/
def readOptStr : Option Json → Except LoadErr (Option String)
  | none => Except.ok none
  | some Json.null => Except.ok none
  | some (Json.str s) => Except.ok (some s)
  | some _ => Except.error LoadErr.typeMismatch

/-- A JSON array of strings. -/
def strItems : List Json → Except LoadErr (List String)
  | [] => Except.ok []
  | Json.str s :: rest => (strItems rest).map (fun l => s :: l)
  | _ :: _ => Except.error LoadErr.typeMismatch

/-- data.get("depends_on", []) fed through the constructor's
"depends_on or []": absent and null both give the empty list. -/
def readStrListOr : Option Json → Except LoadErr (List String)
  | none => Except.ok []
  | some Json.null => Except.ok []
  | some (Json.arr js) => strItems js
  | some _ => Except.error LoadErr.typeMismatch

/-- data.get("attempts", []): absent gives the empty list. -/
def readStrListD : Option Json → Except LoadErr (List String)
  | none => Except.ok []
  | some (Json.arr js) => strItems js
  | some _ => Except.error LoadErr.typeMismatch

/-- TaskPriority(value): Python raises ValueError on any value that is not
a member of the enum (of any type). -/
def readPriority : Option Json → Except LoadErr TaskPriority
  | none => Except.ok TaskPriority.normal
  | some (Json.str s) =>
    if s = "critical" then Except.ok TaskPriority.critical
    else if s = "high" then Except.ok TaskPriority.high
    else if s = "normal" then Except.ok TaskPriority.normal
    else if s = "background" then Except.ok TaskPriority.background
    else Except.error LoadErr.valueError
  | some _ => Except.error LoadErr.valueError

/-- TaskStatus(value): same convention as readPriority. -/
def readStatus : Option Json → Except LoadErr TaskStatus
  | none => Except.ok TaskStatus.pending
  | some (Json.str s) =>
    if s = "pending" then Except.ok TaskStatus.pending
    else if s = "in_progress" then Except.ok TaskStatus.in_progress
    else if s = "completed" then Except.ok TaskStatus.completed
    else if s = "failed" then Except.ok TaskStatus.failed
    else if s = "blocked" then Except.ok TaskStatus.blocked
    else if s = "cancelled" then Except.ok TaskStatus.cancelled
    else Except.error LoadErr.valueError
  | some _ => Except.error LoadErr.valueError

/-- data.get("created_at", datetime.now().isoformat()): the now parameter
is the default. -/
def readCreated (now : String) : Option Json → Except LoadErr String
  | none => Except.ok now
  | some (Json.str s) => Except.ok s
  | some _ => Except.error LoadErr.typeMismatch

/-- Task.from_dict: reads fields in the evaluation order of the source
(constructor arguments first, then the assigned attributes), so the first
failing access determines the raised error. -/
def from_dict (now : String) : Json → Except LoadErr Task
  | Json.obj fields => do
    let goal ← readStrReq (jlookup fields "goal")
    let action ← readStrD "" (jlookup fields "action")
    let task_type ← readStrD "think" (jlookup fields "task_type")
    let command ← readStrD "" (jlookup fields "command")
    let priority ← readPriority (jlookup fields "priority")
    let parent_id ← readOptStr (jlookup fields "parent_id")
    let depends_on ← readStrListOr (jlookup fields "depends_on")
    let id ← readStrReq (jlookup fields "id")
    let status ← readStatus (jlookup fields "status")
    let result ← readOptStr (jlookup fields "result")
    let error ← readOptStr (jlookup fields "error")
    let attempts ← readStrListD (jlookup fields "attempts")
    let created_at ← readCreated now (jlookup fields "created_at")
    let completed_at ← readOptStr (jlookup fields "completed_at")
    Except.ok
      { id := id, goal := goal, action := action, task_type := task_type,
        command := command, priority := priority, status := status,
        parent_id := parent_id, depends_on := depends_on, result := result,
        error := error, attempts := attempts, created_at := created_at,
        completed_at := completed_at }
  | _ => Except.error LoadErr.typeMismatch

/-- The serialized queue: json.dump of [t.to_dict() for t in tasks]. -/
def serialize (tasks : List Task) : List Json := tasks.map Task.to_dict

/-- The queue file as _load_queue sees it: missing path, unparseable JSON,
or a parsed JSON array. -/
inductive QueueFile where
  | missing
  | malformed
  | parsed (items : List Json)

/-- [Task.from_dict(t) for t in data]: items are deserialized in order,
the first error aborts the comprehension. -/
def loadItems (now : String) : List Json → Except LoadErr (List Task)
  | [] => Except.ok []
  | j :: rest => do
    let t ← from_dict now j
    let ts ← loadItems now rest
    Except.ok (t :: ts)

/-- GoalPlanner._load_queue: a missing file or a JSON decode error or a
KeyError leaves the queue empty; a ValueError from an enum lookup is not
caught by the source and propagates. -/
def load_queue (now : String) : QueueFile → Except LoadErr (List Task)
  | QueueFile.missing => Except.ok []
  | QueueFile.malformed => Except.ok []
  | QueueFile.parsed items =>
    match loadItems now items with
    | Except.ok ts => Except.ok ts
    | Except.error LoadErr.keyError => Except.ok []
    | Except.error e => Except.error e

/-- The queue store state: the in-memory task list, the persisted file,
and a count of _save_queue calls (to observe that a write happened). -/
structure Store where
  tasks : List Task
  file : QueueFile
  writes : Nat

/-- _save_queue applied after replacing the task list. -/
def save_with (s : Store) (tasks : List Task) : Store :=
  { tasks := tasks, file := QueueFile.parsed (serialize tasks), writes := s.writes + 1 }

/-- GoalPlanner.add_task: append, then persist. -/
def add_task (s : Store) (t : Task) : Store :=
  save_with s (s.tasks ++ [t])

/-- The queue effect of GoalPlanner.plan: extend by the new tasks, then
persist once. -/
def plan_extend (s : Store) (new : List Task) : Store :=
  save_with s (s.tasks ++ new)

/-- The source's for-loop with break: update the first task whose id
matches, leave the rest alone. -/
def update_first (tasks : List Task) (tid : String) (f : Task → Task) : List Task :=
  match tasks with
  | [] => []
  | t :: ts => if t.id == tid then f t :: ts else t :: update_first ts tid f

/-- The mutation mark_completed applies to the matching task. -/
def completeUpdate (result now : String) (t : Task) : Task :=
  { t with status := TaskStatus.completed, result := some result, completed_at := some now }

/-- GoalPlanner.mark_completed. -/
def mark_completed (s : Store) (tid result now : String) : Store :=
  save_with s (update_first s.tasks tid (completeUpdate result now))

/-- The mutation mark_failed applies to the matching task: record the
error, append the attempt descriptor (the error when the attempt string is
empty, by Python's attempt-or-error), then compare against max_retries. -/
def failUpdate (error attempt : String) (maxr : Nat) (t : Task) : Task :=
  let descriptor := if attempt = "" then error else attempt
  let atts := t.attempts ++ [descriptor]
  { t with
    error := some error,
    attempts := atts,
    status := if maxr ≤ atts.length then TaskStatus.failed else TaskStatus.pending }

/-- GoalPlanner.mark_failed; maxr is int(os.getenv("AUTONOMY_MAX_RETRIES", "3")). -/
def mark_failed (s : Store) (tid error attempt : String) (maxr : Nat) : Store :=
  save_with s (update_first s.tasks tid (failUpdate error attempt maxr))

/-- GoalPlanner.clear_completed. -/
def clear_completed (s : Store) : Store :=
  save_with s (s.tasks.filter (fun t => !(t.status == TaskStatus.completed)))

/-- The dependency check of get_next_task: every id in depends_on has a
completed task with that id somewhere in the queue. -/
def deps_met (tasks : List Task) (t : Task) : Bool :=
  t.depends_on.all (fun dep =>
    tasks.any (fun u => u.id == dep && u.status == TaskStatus.completed))

/-- The inner-loop filter of get_next_task at a given priority. -/
def runnableAt (tasks : List Task) (p : TaskPriority) (t : Task) : Bool :=
  t.status == TaskStatus.pending && t.priority == p && deps_met tasks t

/-- One pass of the inner loop: the first pending task of priority p whose
dependencies are all completed. -/
def find_for (tasks : List Task) (p : TaskPriority) : Option Task :=
  tasks.find? (runnableAt tasks p)

/-- GoalPlanner.get_next_task: scan priorities critical, high, normal,
background; within each, tasks in insertion order. -/
def get_next_task (tasks : List Task) : Option Task :=
  match find_for tasks TaskPriority.critical with
  | some t => some t
  | none =>
    match find_for tasks TaskPriority.high with
    | some t => some t
    | none =>
      match find_for tasks TaskPriority.normal with
      | some t => some t
      | none => find_for tasks TaskPriority.background

/-- needle is a leading block of hay (character lists). -/
def startsWithL : List Char → List Char → Bool
  | _, [] => true
  | [], _ :: _ => false
  | a :: as, b :: bs => a == b && startsWithL as bs

/-- Python's "needle in hay": needle occurs contiguously in hay. -/
def containsL (hay needle : List Char) : Bool :=
  match hay with
  | [] => startsWithL [] needle
  | _ :: t => startsWithL hay needle || containsL t needle

/-- String-level substring containment. -/
def strContains (hay needle : String) : Bool :=
  containsL hay.data needle.data

/-- str.lower, per character. -/
def lowerStr (s : String) : String :=
  String.mk (s.data.map Char.toLower)

/-- The autonomy section of the personality config consumed by the policy
predicates (personality.py): confirmation substrings, risk lists, and the
per-kind auto-execution toggles. -/
structure AutonomyConfig where
  require_confirmation_for : List String
  risk_dangerous : List String
  risk_moderate : List String
  auto_execute_shell : Bool
  auto_manage_files : Bool
  auto_install_packages : Bool
  auto_browse_web : Bool
  auto_schedule_tasks : Bool

/-- PersonalityEngine.requires_confirmation: any configured substring
occurs in the command (case-sensitive). -/
def requires_confirmation (cfg : AutonomyConfig) (command : String) : Bool :=
  cfg.require_confirmation_for.any (fun dangerous => strContains command dangerous)

/-- PersonalityEngine.get_risk_level: case-insensitive substring match,
dangerous list first, then moderate, else safe. -/
def get_risk_level (cfg : AutonomyConfig) (action_description : String) : String :=
  let action_lower := lowerStr action_description
  if cfg.risk_dangerous.any (fun a => strContains action_lower (lowerStr a)) then "dangerous"
  else if cfg.risk_moderate.any (fun a => strContains action_lower (lowerStr a)) then "moderate"
  else "safe"

/-- PersonalityEngine.can_auto_execute: lookup in the per-kind mapping,
default false for unknown kinds. -/
def can_auto_execute (cfg : AutonomyConfig) (action_type : String) : Bool :=
  if action_type = "shell" then cfg.auto_execute_shell
  else if action_type = "files" then cfg.auto_manage_files
  else if action_type = "packages" then cfg.auto_install_packages
  else if action_type = "web" then cfg.auto_browse_web
  else if action_type = "schedule" then cfg.auto_schedule_tasks
  else false

/-- What the shell handler does with a command: raise PermissionError
before any subprocess, or reach the subprocess.run call. -/
inductive ShellOutcome where
  | permissionError (msg : String)
  | spawned (command : String)
deriving DecidableEq, Repr

/-- ExecutionLoop._execute_shell after the command is fixed (given, or
generated by the LLM when empty): the two policy checks in source order,
then and only then the subprocess. -/
def execute_shell (cfg : AutonomyConfig) (command : String) : ShellOutcome :=
  if requires_confirmation cfg command then
    ShellOutcome.permissionError
      ("Command requires confirmation: " ++ command ++ ". Blocked by safety config.")
  else if get_risk_level cfg ("execute shell: " ++ command) == "dangerous"
      && !(can_auto_execute cfg "shell") then
    ShellOutcome.permissionError "Shell execution disabled for dangerous commands."
  else
    ShellOutcome.spawned command

/-- Python errors GoalPlanner.plan can hit after json.loads succeeded;
neither is caught by the source's except clause. -/
inductive PyErr where
  | attributeError
  | typeError
deriving DecidableEq, Repr

/-- The fallback step synthesized when JSON extraction fails. -/
def fallback_step (goal : String) : Json :=
  Json.obj
    [ ("id", Json.num 1), ("action", Json.str goal), ("type", Json.str "think"),
      ("command", Json.str ""), ("depends_on", Json.arr []) ]

/-- The step-list stage of GoalPlanner.plan, as a function of the result of
json.loads on the fence-stripped response. A decode error is caught and
replaced by the fallback single step. On a successful parse the source
runs plan.get("steps", []) and then iterates: a non-object plan raises
AttributeError (.get on list, str, int, bool or None); a "steps" value
that is not a list raises when iterated or when the first element receives
.get (AttributeError on the characters of a non-empty string or the keys
of a non-empty object, TypeError on a non-iterable), except that an empty
string or object iterates to no steps at all. None of these raises is
caught by the except clause, which names only JSONDecodeError and
IndexError. -/
def plan_steps (goal : String) : Except Unit Json → Except PyErr (List Json)
  | Except.error _ => Except.ok [fallback_step goal]
  | Except.ok (Json.obj fields) =>
    match jlookup fields "steps" with
    | none => Except.ok []
    | some (Json.arr steps) => Except.ok steps
    | some (Json.str s) =>
      if s.isEmpty then Except.ok [] else Except.error PyErr.attributeError
    | some (Json.obj fs) =>
      if fs.isEmpty then Except.ok [] else Except.error PyErr.attributeError
    | some Json.null => Except.error PyErr.typeError
    | some (Json.bool _) => Except.error PyErr.typeError
    | some (Json.num _) => Except.error PyErr.typeError
  | Except.ok _ => Except.error PyErr.attributeError

/-- The status of the first task with the given id, the task the source's
for-loop with break would act on. -/
def firstStatus (l : List Task) (tid : String) : Option TaskStatus :=
  (l.find? (fun t => t.id == tid)).map Task.status

/-- The mutation of execution_loop.py line 60: the dispatched task is set
to in_progress by direct field assignment, with no _save_queue call. -/
def dispatch_task (s : Store) (tid : String) : Store :=
  { tasks := update_first s.tasks tid (fun t => { t with status := TaskStatus.in_progress }),
    file := s.file,
    writes := s.writes }

/-- The mutating queue-store operations (each ends in _save_queue). Tasks
entering through add_task or plan come from the Task constructor, hence
are pending with an empty attempts list. -/
inductive StoreStep (maxr : Nat) : Store → Store → Prop where
  | add (s : Store) (t : Task) (hst : t.status = TaskStatus.pending)
      (hat : t.attempts = []) : StoreStep maxr s (add_task s t)
  | planExtend (s : Store) (new : List Task)
      (hnew : ∀ t ∈ new, t.status = TaskStatus.pending ∧ t.attempts = []) :
      StoreStep maxr s (plan_extend s new)
  | complete (s : Store) (tid result now : String) :
      StoreStep maxr s (mark_completed s tid result now)
  | fail (s : Store) (tid error attempt : String) :
      StoreStep maxr s (mark_failed s tid error attempt maxr)
  | clear (s : Store) : StoreStep maxr s (clear_completed s)

/-- Every queue mutation of the system: a store operation, or the
execution loop's direct in_progress assignment. -/
inductive SysStep (maxr : Nat) : Store → Store → Prop where
  | store {s s' : Store} (h : StoreStep maxr s s') : SysStep maxr s s'
  | dispatch (s : Store) (tid : String) : SysStep maxr s (dispatch_task s tid)

/-- The execution loop's use of the store, at the level of the task list:
fresh tasks enter pending with no attempts; the loop dispatches a pending
task, then marks precisely that in_progress task completed or failed;
clear_completed may run between iterations. -/
inductive LoopStep (maxr : Nat) : List Task → List Task → Prop where
  | add (l : List Task) (t : Task) (hst : t.status = TaskStatus.pending)
      (hat : t.attempts = []) : LoopStep maxr l (l ++ [t])
  | dispatch (l : List Task) (tid : String)
      (hp : firstStatus l tid = some TaskStatus.pending) :
      LoopStep maxr l (update_first l tid (fun t => { t with status := TaskStatus.in_progress }))
  | complete (l : List Task) (tid result now : String)
      (hp : firstStatus l tid = some TaskStatus.in_progress) :
      LoopStep maxr l (update_first l tid (completeUpdate result now))
  | fail (l : List Task) (tid error attempt : String)
      (hp : firstStatus l tid = some TaskStatus.in_progress) :
      LoopStep maxr l (update_first l tid (failUpdate error attempt maxr))
  | clear (l : List Task) :
      LoopStep maxr l (l.filter (fun t => !(t.status == TaskStatus.completed)))

/-- Task lists the execution loop can reach from an empty queue. -/
inductive LoopReach (maxr : Nat) : List Task → Prop where
  | base : LoopReach maxr []
  | step (l l' : List Task) (h : LoopReach maxr l) (hs : LoopStep maxr l l') :
      LoopReach maxr l'

theorem find?_in_front {α : Type} (p : α → Bool) (a : α) (xs ys : List α) (h : p a = true) :
    ∃ y, (xs ++ a :: ys).find? p = some y ∧ y ∈ xs ++ [a] := by
  induction xs with
  | nil =>
    refine ⟨a, ?_, by simp⟩
    simp [List.find?_cons, h]
  | cons x xs ih =>
    cases hx : p x with
    | true =>
      refine ⟨x, ?_, by simp⟩
      simp [List.find?_cons, hx]
    | false =>
      rcases ih with ⟨y, hy, hmem⟩
      refine ⟨y, ?_, ?_⟩
      · simp [List.find?_cons, hx, hy]
      · rcases List.mem_append.mp hmem with h1 | h1
        · exact List.mem_append.mpr (Or.inl (List.mem_cons_of_mem x h1))
        · exact List.mem_append.mpr (Or.inr h1)

theorem mem_update_first (l : List Task) (tid : String) (f : Task → Task) (t : Task)
    (ht : t ∈ l) :
    t ∈ update_first l tid f ∨ l.find? (fun x => x.id == tid) = some t := by
  induction l with
  | nil => cases ht
  | cons x xs ih =>
    by_cases hx : (x.id == tid) = true
    · rcases List.mem_cons.mp ht with rfl | hmem
      · right; simp [List.find?_cons, hx]
      · left; simp [update_first, hx, hmem]
    · have hx' : (x.id == tid) = false := by simpa using hx
      rcases List.mem_cons.mp ht with rfl | hmem
      · left; simp [update_first, hx']
      · rcases ih hmem with h1 | h1
        · left; simp [update_first, hx', h1]
        · right; simpa [List.find?_cons, hx'] using h1

theorem mem_update_first_ex (l : List Task) (tid : String) (f : Task → Task) (t' : Task)
    (ht : t' ∈ update_first l tid f) :
    t' ∈ l ∨ ∃ u, l.find? (fun x => x.id == tid) = some u ∧ t' = f u := by
  induction l with
  | nil => cases ht
  | cons x xs ih =>
    by_cases hx : (x.id == tid) = true
    · rw [update_first] at ht
      simp only [hx, if_true] at ht
      rcases List.mem_cons.mp ht with rfl | hmem
      · right; exact ⟨x, by simp [List.find?_cons, hx], rfl⟩
      · left; exact List.mem_cons_of_mem x hmem
    · have hx' : (x.id == tid) = false := by simpa using hx
      rw [update_first] at ht
      simp only [hx', if_false, Bool.false_eq_true] at ht
      rcases List.mem_cons.mp ht with rfl | hmem
      · left; exact List.mem_cons_self _ _
      · rcases ih hmem with h1 | h1
        · left; exact List.mem_cons_of_mem x h1
        · rcases h1 with ⟨u, hu, rfl⟩
          right; exact ⟨u, by simpa [List.find?_cons, hx'] using hu, rfl⟩

theorem update_first_no_match (l : List Task) (tid : String) (f : Task → Task)
    (h : ∀ t ∈ l, t.id ≠ tid) : update_first l tid f = l := by
  induction l with
  | nil => rfl
  | cons x xs ih =>
    have hx : (x.id == tid) = false := by
      simpa using h x (List.mem_cons_self _ _)
    rw [update_first]
    simp only [hx, Bool.false_eq_true, if_false]
    rw [ih (fun t htm => h t (List.mem_cons_of_mem x htm))]

theorem update_first_decomp (l1 l2 : List Task) (t : Task) (tid : String) (f : Task → Task)
    (h1 : ∀ u ∈ l1, u.id ≠ tid) (ht : t.id = tid) :
    update_first (l1 ++ t :: l2) tid f = l1 ++ f t :: l2 := by
  induction l1 with
  | nil =>
    rw [List.nil_append, update_first]
    simp [ht]
  | cons x xs ih =>
    have hx : (x.id == tid) = false := by
      simpa using h1 x (List.mem_cons_self _ _)
    rw [List.cons_append, update_first]
    simp only [hx, Bool.false_eq_true, if_false]
    rw [ih (fun u hu => h1 u (List.mem_cons_of_mem x hu))]
    simp

theorem get_next_task_inv (tasks : List Task) (r : Task) (h : get_next_task tasks = some r) :
    ∃ q, find_for tasks q = some r := by
  unfold get_next_task at h
  rcases hc : find_for tasks TaskPriority.critical with _ | t
  · rcases hh : find_for tasks TaskPriority.high with _ | t
    · rcases hn : find_for tasks TaskPriority.normal with _ | t
      · simp only [hc, hh, hn] at h
        exact ⟨TaskPriority.background, h⟩
      · simp only [hc, hh, hn] at h
        obtain rfl : t = r := by simpa using h
        exact ⟨TaskPriority.normal, hn⟩
    · simp only [hc, hh] at h
      obtain rfl : t = r := by simpa using h
      exact ⟨TaskPriority.high, hh⟩
  · simp only [hc] at h
    obtain rfl : t = r := by simpa using h
    exact ⟨TaskPriority.critical, hc⟩

/-- A very small queue: a pending normal task whose dependency "c" is
absent, inserted before an independent pending normal task. -/
def tA : Task := Task.make "a" "g" "A" "think" "" TaskPriority.normal none ["c"] "t0"

/-- The younger independent task of the C1 counterexample queue. -/
def tB : Task := Task.make "b" "g" "B" "think" "" TaskPriority.normal none [] "t0"

/-- Claim C1, as stated, is false on the code: tA and tB share priority
normal, neither depends on the other, tA was inserted first and is
pending, yet get_next_task returns tB, because tA's dependency on the
absent task "c" makes tA non-runnable and the scan skips it. -/
theorem c1_counterexample :
    get_next_task [tA, tB] = some tB ∧ tA.status = TaskStatus.pending ∧
      tA.priority = tB.priority ∧ tB.id ∉ tA.depends_on ∧ tA.id ∉ tB.depends_on := by
  decide

/-- Claim C1 (amended): for two tasks a and b of the same priority with a
inserted before b, while a is pending AND runnable (all of a's
dependencies completed), get_next_task never returns b; in particular a
retry that re-enters pending keeps its position, so a runnable older task
is always dispatched before a younger one of the same priority. -/
theorem c1_fifo_runnable (tasks l1 l2 l3 : List Task) (a b : Task)
    (hdec : tasks = l1 ++ a :: (l2 ++ b :: l3))
    (hnd : (tasks.map Task.id).Nodup)
    (hpr : a.priority = b.priority)
    (hpa : a.status = TaskStatus.pending)
    (hdm : deps_met tasks a = true) :
    get_next_task tasks ≠ some b := by
  intro hb
  obtain ⟨q, hq⟩ := get_next_task_inv tasks b hb
  have hrb : runnableAt tasks q b = true := List.find?_some hq
  simp only [runnableAt, Bool.and_eq_true, beq_iff_eq] at hrb
  have hqb : b.priority = q := hrb.1.2
  have hra : runnableAt tasks q a = true := by
    simp only [runnableAt, Bool.and_eq_true, beq_iff_eq]
    exact ⟨⟨hpa, hpr.trans hqb⟩, hdm⟩
  obtain ⟨y, hy, hymem⟩ := find?_in_front (runnableAt tasks q) a l1 (l2 ++ b :: l3) hra
  rw [← hdec] at hy
  have hyb : y = b := by
    have : some y = some b := by
      rw [← hy, ← hq]; rfl
    simpa using this
  subst hyb
  have hassoc : tasks = (l1 ++ [a]) ++ (l2 ++ y :: l3) := by rw [hdec]; simp
  rw [hassoc, List.map_append, List.nodup_append] at hnd
  exact hnd.2.2 (List.mem_map_of_mem Task.id hymem)
    (List.mem_map_of_mem Task.id (by simp))

/-- An older runnable task of the C1 witness queue. -/
def tP : Task := Task.make "p1" "g" "P" "think" "" TaskPriority.normal none [] "t0"

/-- A younger runnable task of the C1 witness queue. -/
def tQ : Task := Task.make "q1" "g" "Q" "think" "" TaskPriority.normal none [] "t0"

theorem c1_fifo_runnable_witness : get_next_task [tP, tQ] ≠ some tQ :=
  c1_fifo_runnable [tP, tQ] [] [] [] tP tQ rfl (by decide) rfl rfl (by decide)

/-- Claim C4: whatever task get_next_task returns has every dependency id
bound to a completed task in the queue; hence a task with an unmet (failed
or absent) dependency is never dispatched. -/
theorem c4_deps_gate (tasks : List Task) (r : Task) (h : get_next_task tasks = some r) :
    ∀ dep ∈ r.depends_on, ∃ u ∈ tasks, u.id = dep ∧ u.status = TaskStatus.completed := by
  obtain ⟨q, hq⟩ := get_next_task_inv tasks r h
  have hr : runnableAt tasks q r = true := List.find?_some hq
  simp only [runnableAt, Bool.and_eq_true, beq_iff_eq] at hr
  have hdm := hr.2
  intro dep hdep
  simp only [deps_met, List.all_eq_true] at hdm
  have hany := hdm dep hdep
  simp only [List.any_eq_true, Bool.and_eq_true, beq_iff_eq] at hany
  obtain ⟨u, hu, hid, hst⟩ := hany
  exact ⟨u, hu, hid, hst⟩

/-- A completed dependency task for the C4 witness queue. -/
def tDone : Task :=
  completeUpdate "ok" "t1" (Task.make "d" "g" "D" "think" "" TaskPriority.normal none [] "t0")

/-- A pending task depending on tDone, for the C4 witness queue. -/
def tReady : Task := Task.make "r" "g" "R" "think" "" TaskPriority.normal none ["d"] "t0"

theorem c4_deps_gate_witness :
    ∃ u ∈ [tDone, tReady], u.id = "d" ∧ u.status = TaskStatus.completed :=
  c4_deps_gate [tDone, tReady] tReady (by decide) "d" (by decide)

/-- A fresh task for the C2 queue. -/
def tF : Task := Task.make "t" "g" "F" "think" "" TaskPriority.normal none [] "t0"

/-- A store holding only tF. -/
def sC2 : Store := { tasks := [tF], file := QueueFile.parsed (serialize [tF]), writes := 0 }

/-- Claim C2, as stated over arbitrary store operations, is false on the
code: with max_retries = 3, four mark_failed calls leave attempts of
length 4 > 3 (mark_failed keeps appending to an already failed task), and
after three calls the failed status is not terminal either, since a
mark_completed call on the failed task flips it to completed. -/
theorem c2_counterexample :
    ((mark_failed (mark_failed (mark_failed (mark_failed sC2 "t" "boom" "" 3)
        "t" "boom" "" 3) "t" "boom" "" 3) "t" "boom" "" 3).tasks.map
        (fun t => t.attempts.length) = [4]) ∧
    ((mark_failed (mark_failed (mark_failed sC2 "t" "boom" "" 3) "t" "boom" "" 3)
        "t" "boom" "" 3).tasks.map Task.status = [TaskStatus.failed]) ∧
    ((mark_completed (mark_failed (mark_failed (mark_failed sC2 "t" "boom" "" 3)
        "t" "boom" "" 3) "t" "boom" "" 3) "t" "done" "t9").tasks.map Task.status
        = [TaskStatus.completed]) := by
  decide

/-- The attempts-versus-status invariant the loop discipline maintains. -/
def AttInv (maxr : Nat) (l : List Task) : Prop :=
  ∀ t ∈ l, t.attempts.length ≤ maxr ∧
    ((t.status = TaskStatus.pending ∨ t.status = TaskStatus.in_progress) →
      t.attempts.length < maxr)

theorem first_of_firstStatus (l : List Task) (tid : String) (st : TaskStatus)
    (hp : firstStatus l tid = some st) :
    ∃ u, l.find? (fun t => t.id == tid) = some u ∧ u.status = st := by
  unfold firstStatus at hp
  rcases hf : l.find? (fun t => t.id == tid) with _ | u
  · rw [hf] at hp; cases hp
  · rw [hf] at hp
    exact ⟨u, hf, by simpa using hp⟩

theorem loopstep_attinv (maxr : Nat) (l l' : List Task) (hm : 0 < maxr)
    (hs : LoopStep maxr l l') (hI : AttInv maxr l) : AttInv maxr l' := by
  cases hs with
  | add t hst hat =>
    intro u hu
    rcases List.mem_append.mp hu with h1 | h1
    · exact hI u h1
    · obtain rfl : u = t := by simpa using h1
      simp [hat, hm]
  | dispatch tid hp =>
    intro u hu
    rcases mem_update_first_ex _ _ _ _ hu with h1 | ⟨v, hv, rfl⟩
    · exact hI u h1
    · obtain ⟨v0, hv0, hvst⟩ := first_of_firstStatus l tid _ hp
      rw [hv0] at hv
      obtain rfl : v0 = v := by simpa using hv
      have hlt := (hI v0 (List.mem_of_find?_eq_some hv0)).2 (Or.inl hvst)
      exact ⟨Nat.le_of_lt hlt, fun _ => hlt⟩
  | complete tid result now hp =>
    intro u hu
    rcases mem_update_first_ex _ _ _ _ hu with h1 | ⟨v, hv, rfl⟩
    · exact hI u h1
    · have hle := (hI v (List.mem_of_find?_eq_some hv)).1
      refine ⟨hle, fun hc => ?_⟩
      rcases hc with hc | hc <;> simp [completeUpdate] at hc
  | fail tid error attempt hp =>
    intro u hu
    rcases mem_update_first_ex _ _ _ _ hu with h1 | ⟨v, hv, rfl⟩
    · exact hI u h1
    · obtain ⟨v0, hv0, hvst⟩ := first_of_firstStatus l tid _ hp
      rw [hv0] at hv
      obtain rfl : v0 = v := by simpa using hv
      have hlt := (hI v0 (List.mem_of_find?_eq_some hv0)).2 (Or.inr hvst)
      constructor
      · simp only [failUpdate, List.length_append, List.length_cons, List.length_nil]
        omega
      · intro hc
        simp only [failUpdate] at hc ⊢
        simp only [List.length_append, List.length_cons, List.length_nil]
        rcases hc with hc | hc <;>
        · by_cases hb : maxr ≤ v0.attempts.length + 1
          · simp only [List.length_append, List.length_cons, List.length_nil, hb,
              if_true] at hc
            cases hc
          · omega
  | clear =>
    intro u hu
    exact hI u (List.mem_of_mem_filter hu)

theorem loopreach_attinv (maxr : Nat) (l : List Task) (hm : 0 < maxr)
    (hr : LoopReach maxr l) : AttInv maxr l := by
  induction hr with
  | base => intro t ht; cases ht
  | step l l' h hs ih => exact loopstep_attinv maxr l l' hm hs ih

theorem failed_stays (maxr : Nat) (l l' : List Task) (t : Task)
    (hs : LoopStep maxr l l') (ht : t ∈ l) (hf : t.status = TaskStatus.failed) :
    t ∈ l' := by
  cases hs with
  | add u hst hat => exact List.mem_append_left _ ht
  | dispatch tid hp =>
    rcases mem_update_first _ _ (fun x => { x with status := TaskStatus.in_progress }) t ht
      with h1 | h1
    · exact h1
    · obtain ⟨u, hu, hust⟩ := first_of_firstStatus l tid _ hp
      rw [hu] at h1
      obtain rfl : u = t := by simpa using h1
      rw [hf] at hust; cases hust
  | complete tid result now hp =>
    rcases mem_update_first _ _ (completeUpdate result now) t ht with h1 | h1
    · exact h1
    · obtain ⟨u, hu, hust⟩ := first_of_firstStatus l tid _ hp
      rw [hu] at h1
      obtain rfl : u = t := by simpa using h1
      rw [hf] at hust; cases hust
  | fail tid error attempt hp =>
    rcases mem_update_first _ _ (failUpdate error attempt maxr) t ht with h1 | h1
    · exact h1
    · obtain ⟨u, hu, hust⟩ := first_of_firstStatus l tid _ hp
      rw [hu] at h1
      obtain rfl : u = t := by simpa using h1
      rw [hf] at hust; cases hust
  | clear =>
    refine List.mem_filter.mpr ⟨ht, ?_⟩
    simp [hf]

/-- Claim C2 (amended): under the execution-loop discipline — fresh tasks
enter pending with no attempts, mark_completed and mark_failed are applied
only to the task the loop dispatched (pending at dispatch, in_progress
when marked) — every reachable queue satisfies len(attempts) ≤ max_retries
(for any positive max_retries), and a failed task survives every further
loop step unchanged: failed is terminal for the loop. -/
theorem c2_loop_attempts_bound (maxr : Nat) (l : List Task)
    (hm : 0 < maxr) (hr : LoopReach maxr l) :
    (∀ t ∈ l, t.attempts.length ≤ maxr) ∧
    (∀ l' t, LoopStep maxr l l' → t ∈ l → t.status = TaskStatus.failed → t ∈ l') := by
  constructor
  · intro t ht
    exact (loopreach_attinv maxr l hm hr t ht).1
  · intro l' t hs ht hf
    exact failed_stays maxr l l' t hs ht hf

/-- tF after the loop dispatched it. -/
def tFdisp : Task := { tF with status := TaskStatus.in_progress }

theorem c2_loop_attempts_bound_witness : 0 < 1 ∧ tFdisp.attempts.length ≤ 1 :=
  ⟨Nat.one_pos,
    (c2_loop_attempts_bound 1 [tFdisp] Nat.one_pos
      (LoopReach.step _ _
        (LoopReach.step _ _ LoopReach.base (LoopStep.add [] tF rfl rfl))
        (LoopStep.dispatch [tF] "t" (by decide)))).1 tFdisp (by decide)⟩

/-- Claim C3: mark_failed on a task present in the queue (the first with
the target id) appends the attempt descriptor (the attempt string, or the
error when the attempt string is empty), records the error, sets the
status to failed when the new attempts length reaches max_retries — in
particular exactly at max_retries — and to pending otherwise, and persists
the queue before returning. -/
theorem c3_mark_failed_spec (s : Store) (l1 l2 : List Task) (t : Task)
    (tid error attempt : String) (maxr : Nat)
    (hdec : s.tasks = l1 ++ t :: l2)
    (hfst : ∀ u ∈ l1, u.id ≠ tid)
    (hid : t.id = tid) :
    (mark_failed s tid error attempt maxr).tasks
      = l1 ++ ({ t with
          error := some error,
          attempts := t.attempts ++ [if attempt = "" then error else attempt],
          status := if maxr ≤ t.attempts.length + 1 then TaskStatus.failed
                    else TaskStatus.pending } : Task) :: l2 ∧
    (mark_failed s tid error attempt maxr).file
      = QueueFile.parsed (serialize ((mark_failed s tid error attempt maxr).tasks)) ∧
    (mark_failed s tid error attempt maxr).writes = s.writes + 1 := by
  refine ⟨?_, rfl, rfl⟩
  show update_first s.tasks tid (failUpdate error attempt maxr) = _
  rw [hdec, update_first_decomp l1 l2 t tid _ hfst hid]
  simp [failUpdate]

theorem c3_mark_failed_spec_witness :
    tF.id = "t" ∧
    (mark_failed sC2 "t" "boom" "" 3).tasks.map (fun u => u.attempts) = [["boom"]] ∧
    (mark_failed sC2 "t" "boom" "" 3).tasks.map Task.status = [TaskStatus.pending] ∧
    (mark_failed sC2 "t" "boom" "" 3).writes = 1 := by
  have h := c3_mark_failed_spec sC2 [] [] tF "t" "boom" "" 3 rfl (by simp) rfl
  exact ⟨rfl, by rw [h.1]; decide, by rw [h.1]; decide, h.2.2⟩

/-- Claim C9: mark_completed and mark_failed with an id absent from the
queue raise nothing (they are total), leave every task unchanged, and
still rewrite the persistence file (one more _save_queue call, writing the
unchanged serialization). -/
theorem c9_mark_missing_id (s : Store) (tid result error attempt now : String) (maxr : Nat)
    (h : ∀ t ∈ s.tasks, t.id ≠ tid) :
    (mark_completed s tid result now).tasks = s.tasks ∧
    (mark_completed s tid result now).file = QueueFile.parsed (serialize s.tasks) ∧
    (mark_completed s tid result now).writes = s.writes + 1 ∧
    (mark_failed s tid error attempt maxr).tasks = s.tasks ∧
    (mark_failed s tid error attempt maxr).file = QueueFile.parsed (serialize s.tasks) ∧
    (mark_failed s tid error attempt maxr).writes = s.writes + 1 := by
  have h1 := update_first_no_match s.tasks tid (completeUpdate result now) h
  have h2 := update_first_no_match s.tasks tid (failUpdate error attempt maxr) h
  unfold mark_completed mark_failed save_with
  rw [h1, h2]
  exact ⟨rfl, rfl, rfl, rfl, rfl, rfl⟩

theorem c9_mark_missing_id_witness :
    (mark_completed sC2 "nope" "r" "t9").tasks = sC2.tasks ∧
    (mark_failed sC2 "nope" "e" "" 3).writes = 1 := by
  have h := c9_mark_missing_id sC2 "nope" "r" "e" "" "t9" 3 (by decide)
  exact ⟨h.1, h.2.2.2.2.2⟩

theorem failUpdate_status_cases (error attempt : String) (maxr : Nat) (t : Task) :
    (failUpdate error attempt maxr t).status = TaskStatus.failed ∨
    (failUpdate error attempt maxr t).status = TaskStatus.pending := by
  simp only [failUpdate]
  by_cases hb : maxr ≤ t.attempts.length + 1
  · left; simp [hb]
  · right; simp [hb]

/-- Claim C10: no queue-store operation and no execution-loop mutation
ever sets a task's status to blocked or cancelled: if no task in the store
has either status, the same holds after any system step, so the two
statuses can only enter memory through a loaded queue file that already
contains them. -/
theorem c10_no_blocked_cancelled (maxr : Nat) (s s' : Store)
    (hstep : SysStep maxr s s')
    (hinv : ∀ t ∈ s.tasks,
      t.status ≠ TaskStatus.blocked ∧ t.status ≠ TaskStatus.cancelled) :
    ∀ t ∈ s'.tasks,
      t.status ≠ TaskStatus.blocked ∧ t.status ≠ TaskStatus.cancelled := by
  cases hstep with
  | store h =>
    cases h with
    | add t hst hat =>
      intro u hu
      have hu' : u ∈ s.tasks ++ [t] := hu
      rcases List.mem_append.mp hu' with h1 | h1
      · exact hinv u h1
      · obtain rfl : u = t := by simpa using h1
        rw [hst]
        exact ⟨by simp, by simp⟩
    | planExtend new hnew =>
      intro u hu
      have hu' : u ∈ s.tasks ++ new := hu
      rcases List.mem_append.mp hu' with h1 | h1
      · exact hinv u h1
      · rw [(hnew u h1).1]
        exact ⟨by simp, by simp⟩
    | complete tid result now =>
      intro u hu
      have hu' : u ∈ update_first s.tasks tid (completeUpdate result now) := hu
      rcases mem_update_first_ex _ _ _ _ hu' with h1 | ⟨v, _, rfl⟩
      · exact hinv u h1
      · exact ⟨by simp [completeUpdate], by simp [completeUpdate]⟩
    | fail tid error attempt =>
      intro u hu
      have hu' : u ∈ update_first s.tasks tid (failUpdate error attempt maxr) := hu
      rcases mem_update_first_ex _ _ _ _ hu' with h1 | ⟨v, _, rfl⟩
      · exact hinv u h1
      · constructor <;>
          (rcases failUpdate_status_cases error attempt maxr v with hst | hst <;> simp [hst])
    | clear =>
      intro u hu
      have hu' : u ∈ s.tasks.filter (fun t => !(t.status == TaskStatus.completed)) := hu
      exact hinv u (List.mem_of_mem_filter hu')
  | dispatch tid =>
    intro u hu
    have hu' : u ∈ update_first s.tasks tid
        (fun t => { t with status := TaskStatus.in_progress }) := hu
    rcases mem_update_first_ex _ _ _ _ hu' with h1 | ⟨v, _, rfl⟩
    · exact hinv u h1
    · exact ⟨by simp, by simp⟩

theorem c10_no_blocked_cancelled_witness :
    tF.status ≠ TaskStatus.blocked ∧ tF.status ≠ TaskStatus.cancelled :=
  c10_no_blocked_cancelled 3 sC2 (add_task sC2 tP)
    (SysStep.store (StoreStep.add sC2 tP rfl rfl)) (by decide) tF (by decide)

theorem containsL_mono (pre hay needle : List Char) (h : containsL hay needle = true) :
    containsL (pre ++ hay) needle = true := by
  induction pre with
  | nil => simpa using h
  | cons c cs ih =>
    show (startsWithL (c :: (cs ++ hay)) needle || containsL (cs ++ hay) needle) = true
    rw [ih]
    simp

theorem lowerStr_data_append (p c : String) :
    (lowerStr (p ++ c)).data = (lowerStr p).data ++ (lowerStr c).data := by
  show ((p ++ c).data.map Char.toLower) = p.data.map Char.toLower ++ c.data.map Char.toLower
  rw [String.data_append, List.map_append]

theorem risk_dangerous_mono (cfg : AutonomyConfig) (p c : String)
    (h : get_risk_level cfg c = "dangerous") :
    get_risk_level cfg (p ++ c) = "dangerous" := by
  unfold get_risk_level at h ⊢
  by_cases hd : cfg.risk_dangerous.any (fun a => strContains (lowerStr c) (lowerStr a)) = true
  · have hfull : cfg.risk_dangerous.any
        (fun a => strContains (lowerStr (p ++ c)) (lowerStr a)) = true := by
      rw [List.any_eq_true] at hd ⊢
      obtain ⟨a, ha, hca⟩ := hd
      refine ⟨a, ha, ?_⟩
      unfold strContains at hca ⊢
      rw [lowerStr_data_append]
      exact containsL_mono _ _ _ hca
    simp [hfull]
  · exfalso
    have hd' : cfg.risk_dangerous.any (fun a => strContains (lowerStr c) (lowerStr a)) = false := by
      simpa using hd
    simp only [hd', Bool.false_eq_true, if_false] at h
    split at h <;> exact absurd h (by decide)

/-- True exactly when the shell handler raised PermissionError instead of
reaching subprocess.run. -/
def isPermError : ShellOutcome → Bool
  | ShellOutcome.permissionError _ => true
  | ShellOutcome.spawned _ => false

/-- Claim C5: if the command contains a confirmation-trigger substring, or
the command's risk level is dangerous while shell auto-execution is off,
the shell handler ends in PermissionError and the subprocess is never
spawned; in the embedding the outcome is exclusive, mirroring that both
policy checks precede the subprocess.run call in the source. The risk
check of the source runs on "execute shell: " + command; a dangerous
match inside the command survives that prefixing because substring
containment is monotone under prepending. -/
theorem c5_shell_permission_gate (cfg : AutonomyConfig) (command : String)
    (h : requires_confirmation cfg command = true ∨
      (get_risk_level cfg command = "dangerous" ∧ can_auto_execute cfg "shell" = false)) :
    isPermError (execute_shell cfg command) = true := by
  unfold execute_shell
  by_cases hc : requires_confirmation cfg command = true
  · simp [hc, isPermError]
  · rcases h with h | ⟨hr, ha⟩
    · exact absurd h hc
    · have hcf : requires_confirmation cfg command = false := by simpa using hc
      have hr' := risk_dangerous_mono cfg "execute shell: " command hr
      simp [hcf, hr', ha, isPermError]

/-- A policy config with one confirmation trigger, one dangerous phrase,
and shell auto-execution disabled, for the C5 witness. -/
def cfgW : AutonomyConfig :=
  { require_confirmation_for := ["rm -rf"],
    risk_dangerous := ["delete all"],
    risk_moderate := [],
    auto_execute_shell := false,
    auto_manage_files := true,
    auto_install_packages := true,
    auto_browse_web := true,
    auto_schedule_tasks := true }

theorem c5_shell_permission_gate_witness :
    isPermError (execute_shell cfgW "delete ALL files") = true :=
  c5_shell_permission_gate cfgW "delete ALL files"
    (Or.inr ⟨by decide, rfl⟩)

/-- Claim C6 concerns GoalPlanner.plan's promise never to abort on an
unparseable plan. The first conjunct is the documented fallback: a JSON
decode failure is caught and replaced by the single think step carrying
the goal. The second conjunct is the slip: a response that parses as a
JSON array — json.loads succeeds, but the value has no .get — raises
AttributeError at plan.get("steps", []), which the except clause
(JSONDecodeError, IndexError) does not catch, so plan raises even though
the LLM transport did not error. -/
theorem c6_plan_parse_bug :
    plan_steps "g" (Except.error ()) = Except.ok [fallback_step "g"] ∧
    plan_steps "g" (Except.ok (Json.arr [Json.num 1, Json.num 2]))
      = Except.error PyErr.attributeError :=
  ⟨rfl, rfl⟩

theorem strItems_map (l : List String) : strItems (l.map Json.str) = Except.ok l := by
  induction l with
  | nil => rfl
  | cons s rest ih => simp [strItems, ih, Except.map]

theorem readOptStr_optJson (o : Option String) : readOptStr (some (optJson o)) = Except.ok o := by
  cases o <;> rfl

theorem readPriority_value (p : TaskPriority) :
    readPriority (some (Json.str p.value)) = Except.ok p := by
  cases p <;> rfl

theorem readStatus_value (st : TaskStatus) :
    readStatus (some (Json.str st.value)) = Except.ok st := by
  cases st <;> rfl

theorem readStrListOr_map (l : List String) :
    readStrListOr (some (Json.arr (l.map Json.str))) = Except.ok l := by
  simp [readStrListOr, strItems_map]

theorem readStrListD_map (l : List String) :
    readStrListD (some (Json.arr (l.map Json.str))) = Except.ok l := by
  simp [readStrListD, strItems_map]

theorem from_dict_to_dict (now : String) (t : Task) :
    from_dict now (Task.to_dict t) = Except.ok t := by
  obtain ⟨i, g, a, ty, cm, pr, st, pid, dep, res, err, att, cat, cot⟩ := t
  simp only [Task.to_dict, from_dict, jlookup, List.find?]
  simp [readStrReq, readStrD, readCreated, readOptStr_optJson, readPriority_value,
    readStatus_value, readStrListOr_map, readStrListD_map, Except.bind]
  rfl

theorem loadItems_serialize (now : String) (tasks : List Task) :
    loadItems now (serialize tasks) = Except.ok tasks := by
  induction tasks with
  | nil => rfl
  | cons t ts ih =>
    show (do
      let x ← from_dict now (Task.to_dict t)
      let xs ← loadItems now (serialize ts)
      Except.ok (x :: xs)) = Except.ok (t :: ts)
    rw [from_dict_to_dict, ih]
    rfl

theorem load_after_save (now : String) (tasks : List Task) :
    load_queue now (QueueFile.parsed (serialize tasks)) = Except.ok tasks := by
  simp only [load_queue]
  rw [loadItems_serialize]

/-- Claim C7: deserialization undoes serialization field for field, and
after every mutating store operation (add_task, plan, mark_completed,
mark_failed, clear_completed) reloading the persisted file restores
exactly the in-memory task list. -/
theorem c7_persistence_roundtrip (now : String) :
    (∀ t : Task, from_dict now (Task.to_dict t) = Except.ok t) ∧
    (∀ (maxr : Nat) (s s' : Store), StoreStep maxr s s' →
      load_queue now s'.file = Except.ok s'.tasks) := by
  refine ⟨from_dict_to_dict now, ?_⟩
  intro maxr s s' h
  have hfile : s'.file = QueueFile.parsed (serialize s'.tasks) := by
    cases h with
    | add t hst hat => rfl
    | planExtend new hnew => rfl
    | complete tid result now2 => rfl
    | fail tid error attempt => rfl
    | clear => rfl
  rw [hfile, load_after_save]

theorem c7_persistence_roundtrip_witness :
    from_dict "t0" (Task.to_dict tF) = Except.ok tF ∧
    load_queue "t0" (add_task sC2 tP).file = Except.ok (add_task sC2 tP).tasks :=
  ⟨(c7_persistence_roundtrip "t0").1 tF,
    (c7_persistence_roundtrip "t0").2 3 sC2 (add_task sC2 tP) (StoreStep.add sC2 tP rfl rfl)⟩

/-- Claim C8, as stated, is false on the code: a task object missing the
goal field is not restored with defaults — data["goal"] raises KeyError,
_load_queue catches it, and the whole queue starts empty, so the task is
not restored at all. -/
theorem c8_counterexample :
    jlookup [("id", Json.str "a")] "goal" = none ∧
    from_dict "now0" (Json.obj [("id", Json.str "a")]) = Except.error LoadErr.keyError ∧
    load_queue "now0" (QueueFile.parsed [Json.obj [("id", Json.str "a")]]) = Except.ok [] :=
  ⟨rfl, rfl, rfl⟩

/-- The field names Task.from_dict reads. -/
def knownTaskKeys : List String :=
  ["id", "goal", "action", "task_type", "command", "priority", "status", "parent_id",
   "depends_on", "result", "error", "attempts", "created_at", "completed_at"]

theorem jlookup_unknown (jg ji : Json) (extra : List (String × Json)) (k : String)
    (hkg : k ≠ "goal") (hki : k ≠ "id")
    (hx : ∀ p ∈ extra, p.1 ≠ k) :
    jlookup (("goal", jg) :: ("id", ji) :: extra) k = none := by
  unfold jlookup
  have h1 : ((("goal" : String), jg).1 == k) = false :=
    beq_eq_false_iff_ne.mpr (Ne.symm hkg)
  have h2 : ((("id" : String), ji).1 == k) = false :=
    beq_eq_false_iff_ne.mpr (Ne.symm hki)
  have h3 : extra.find? (fun p => p.1 == k) = none := by
    rw [List.find?_eq_none]
    intro p hp
    simpa using hx p hp
  rw [List.find?_cons, h1, List.find?_cons, h2, h3]
  rfl

/-- Claim C8 (amended): on load, unknown fields of a task object are
ignored and every missing field other than goal and id receives its
default (action "", task_type think, command "", priority normal, status
pending, parent_id none, depends_on [], result none, error none, attempts
[], created_at the load time, completed_at none), the task being restored;
but goal and id have no default: an object missing either raises KeyError,
on which _load_queue restores an empty queue (the counterexample shows
that step). -/
theorem c8_load_defaults (now g i : String) (extra : List (String × Json))
    (hx : ∀ p ∈ extra, p.1 ∉ knownTaskKeys) :
    from_dict now (Json.obj (("goal", Json.str g) :: ("id", Json.str i) :: extra))
      = Except.ok
        { id := i, goal := g, action := "", task_type := "think", command := "",
          priority := TaskPriority.normal, status := TaskStatus.pending, parent_id := none,
          depends_on := [], result := none, error := none, attempts := [],
          created_at := now, completed_at := none } ∧
    from_dict now (Json.obj [("id", Json.str i)]) = Except.error LoadErr.keyError ∧
    from_dict now (Json.obj [("goal", Json.str g)]) = Except.error LoadErr.keyError := by
  refine ⟨?_, rfl, rfl⟩
  have hk : ∀ k, k ∈ knownTaskKeys → k ≠ "goal" → k ≠ "id" →
      jlookup (("goal", Json.str g) :: ("id", Json.str i) :: extra) k = none := by
    intro k hkmem hkg hki
    exact jlookup_unknown _ _ extra k hkg hki
      (fun p hp he => hx p hp (he ▸ hkmem))
  have hgoal : jlookup (("goal", Json.str g) :: ("id", Json.str i) :: extra) "goal"
      = some (Json.str g) := rfl
  have hid : jlookup (("goal", Json.str g) :: ("id", Json.str i) :: extra) "id"
      = some (Json.str i) := rfl
  simp only [from_dict, hgoal, hid,
    hk "action" (by decide) (by decide) (by decide),
    hk "task_type" (by decide) (by decide) (by decide),
    hk "command" (by decide) (by decide) (by decide),
    hk "priority" (by decide) (by decide) (by decide),
    hk "status" (by decide) (by decide) (by decide),
    hk "parent_id" (by decide) (by decide) (by decide),
    hk "depends_on" (by decide) (by decide) (by decide),
    hk "result" (by decide) (by decide) (by decide),
    hk "error" (by decide) (by decide) (by decide),
    hk "attempts" (by decide) (by decide) (by decide),
    hk "created_at" (by decide) (by decide) (by decide),
    hk "completed_at" (by decide) (by decide) (by decide)]
  rfl

theorem c8_load_defaults_witness :
    from_dict "t0" (Json.obj
        [("goal", Json.str "g"), ("id", Json.str "a"), ("mystery", Json.null)])
      = Except.ok
        { id := "a", goal := "g", action := "", task_type := "think", command := "",
          priority := TaskPriority.normal, status := TaskStatus.pending, parent_id := none,
          depends_on := [], result := none, error := none, attempts := [],
          created_at := "t0", completed_at := none } :=
  (c8_load_defaults "t0" "g" "a" [("mystery", Json.null)] (by decide)).1

end Sovra
